import Mathlib

/-!
# Verification of `theano/scan_module/scan.py` (the `scan` construction routine)

Shallow embedding of the graph-construction parts of `scan` that the claims
touch.  Graph nodes are an explicit syntax tree (`GExpr`); the step function
`fn` is an opaque Lean function from argument lists to (outputs, updates);
Python dictionaries with optional keys are encoded with `Option`
(`none` = key absent, `some none` = key present mapping to Python `None`).

Parts of the repository that live outside `src/` (the helpers in
`scan_utils.py`) or outside the repository (theano core) are modelled from
the spec / the docstring of `scan.py` where the claims need them; each such
definition carries a comment saying so.  The downstream pieces of `scan`
that no claim touches (shared-variable discovery, the construction of the
`Scan` op object itself, cloning with `givens`) are not modelled.
-/

namespace TheanoScan

/-- A symbolic graph node.  `var` is a user-supplied theano variable
(`tensorTy` records whether `isinstance(v.type, tensor.TensorType)` holds);
the other constructors mirror the graph operations `scan` applies:
`index g i` is `g[i]`, `sliceFrom g a` is `g[a:]`, `sliceTo g b` is `g[:b]`,
`sliceFromTo g a b` is `g[a:b]`, `rev g` is `g[::-1]`,
`shapePadLeft`/`unbroadcast0` are `tensor.shape_padleft` and
`tensor.unbroadcast(_, 0)`.  `phSeqTap i k`, `phOutTap i k`, `phSit i` are
the fresh inner placeholders (`nw_slice = _seq_val_slice.type()`, and
`safe_new(initial)`) created for sequence taps, mit_sot output taps and
sit_sot initial states respectively. -/
inductive GExpr where
  | var (name : String) (tensorTy : Bool)
  | index (g : GExpr) (i : Int)
  | sliceFrom (g : GExpr) (a : Int)
  | sliceTo (g : GExpr) (b : Int)
  | sliceFromTo (g : GExpr) (a b : Int)
  | rev (g : GExpr)
  | shapePadLeft (g : GExpr)
  | unbroadcast0 (g : GExpr)
  | phSeqTap (i : Nat) (k : Int)
  | phOutTap (i : Nat) (k : Int)
  | phSit (i : Nat)
deriving DecidableEq, Repr

/-- The check `isinstance(v.type, tensor.TensorType)` for the nodes of our syntax:
a base variable carries its flag, every derived tensor operation yields a
tensor-typed node. -/
def GExpr.isTensorTy : GExpr → Bool
  | .var _ b => b
  | _ => true

/-- Scalar-valued symbolic terms: the trip-count arithmetic of lines
470-493 of `scan.py`.  `lit` is a compile-time constant, `nvar` the graph
variable supplied as `n_steps`, `shapeLen g` is `g.shape[0]`, `minS` is
`tensor.minimum`. -/
inductive STerm where
  | lit (v : Int)
  | nvar (name : String)
  | shapeLen (g : GExpr)
  | minS (a b : STerm)
deriving DecidableEq, Repr

/-- The `n_steps` argument.  `noneV` is Python `None`; `pyInt` a Python
`int`; `pyFloat t` a Python `float` whose truncation `int(x)` is `t`
(a plain Python float has no `dtype` attribute); `tvar name dtype c` a
theano variable with the given `dtype` string, `c` being
`opt.get_constant_value` when it succeeds (`none` when the variable is not
a compile-time constant). -/
inductive NSteps where
  | noneV
  | pyInt (v : Int)
  | pyFloat (trunc : Int)
  | tvar (name : String) (dtype : String) (constVal : Option Int)
deriving DecidableEq, Repr

/-- The exceptions `scan` can raise during construction.  `pyError` stands
for the non-`ValueError` Python exceptions reachable only on degenerate
inputs (e.g. `numpy.min` of an empty sequence tap list). -/
inductive Err where
  | badDtype
  | tapsNoInitial
  | noStepInfo
  | futureTaps
  | countMismatch
  | pyError
deriving DecidableEq, Repr

/-- Lines 324-330: `n_fixed_steps`.  `int(n_steps)` for Python numbers,
`opt.get_constant_value(n_steps)` (with the `try/except` giving `None`)
for graph variables. -/
def nFixedSteps : NSteps → Option Int
  | .noneV => none
  | .pyInt v => some v
  | .pyFloat t => some t
  | .tvar _ _ c => c

/-- The test `str(dtype)[:3] in ('uin','int')` (line 334). -/
def dtypeIntegral (d : String) : Bool :=
  d.take 3 = "uin" || d.take 3 = "int"

/-- Lines 332-336: raise unless a dtype-bearing `n_steps` has an integral
dtype.  Python values without a `dtype` attribute are not checked. -/
def nStepsCheck : NSteps → Except Err Unit
  | .tvar _ d _ => if dtypeIntegral d then .ok () else .error .badDtype
  | _ => .ok ()

/-- Line 644 etc.: `n_fixed_steps in [1,-1]`, the collapsible trip count. -/
def collapsibleB (n : NSteps) : Bool :=
  nFixedSteps n = some 1 || nFixedSteps n = some (-1)

/-- Modelled from the spec: `scan_utils.isNaN_or_Inf_or_None` is not under
`src/`.  Per the docstring of `scan.py` (lines 244-247), `n_steps` is
unusable exactly when it "is not provided, or is a constant that evaluates
to `None`, `inf` or `NaN`"; finite numbers and (symbolic) graph variables
are usable.  We do not model `inf`/`NaN` constants, so only `None` is
unusable here. -/
def isNaNInfNone : NSteps → Bool
  | .noneV => true
  | _ => false

/-- The node `tensor.as_tensor(n_steps)` as an `STerm` (the `pyFloat` case keeps
only the truncated value; no claim evaluates a float `n_steps` on the
non-collapsed path). -/
def asTensorN : NSteps → STerm
  | .noneV => .lit 0
  | .pyInt v => .lit v
  | .pyFloat t => .lit t
  | .tvar nm _ _ => .nvar nm

/-- A sequence dictionary: `{input: ..., taps: ...}`.  `taps = none` means
the key is absent, `some none` an explicit `taps: None`, `some (some l)` a
tap list. -/
structure SeqDict where
  input : GExpr
  taps : Option (Option (List Int))
deriving DecidableEq, Repr

/-- A user-supplied entry of the `sequences` argument: a bare variable or
a dictionary. -/
inductive SeqArg where
  | bare (x : GExpr)
  | dict (d : SeqDict)
deriving DecidableEq, Repr

/-- Lines 344-351.  A bare variable is wrapped with `taps=[0]`; a dict with
a truthy tap list keeps it (`wrap_into_list` of a list is the list); the
branch guarded by `seqs[i].get('taps',True) is None` fires only when the
key is present and maps to `None` — a dict *without* a `taps` key is left
unchanged (the guard's own comment says it is meant for the missing-key
case). -/
def normalizeSeq : SeqArg → SeqDict
  | .bare x => { input := x, taps := some (some [0]) }
  | .dict d =>
    match d.taps with
    | some (some l) => if l.isEmpty then d else { d with taps := some (some l) }
    | some none => { d with taps := some (some [0]) }
    | none => d

/-- An output dictionary: `{initial: ..., taps: ..., return_steps: ...}`,
with the same `Option` encoding of key presence as `SeqDict`. -/
structure OutDict where
  initial : Option GExpr
  taps : Option (Option (List Int))
  returnSteps : Option Int
deriving DecidableEq, Repr

/-- A user-supplied entry of the `outputs_info` argument. -/
inductive OutArg where
  | noneA
  | bare (x : GExpr)
  | dict (d : OutDict)
deriving DecidableEq, Repr

/-- Python truthiness of an output dict's `taps` value: a present,
non-empty tap list. -/
def tapsTruthy : Option (Option (List Int)) → Bool
  | some (some l) => !l.isEmpty
  | _ => false

/-- Python truthiness of the dict itself (a dict is truthy iff non-empty). -/
def outDictTruthy (d : OutDict) : Bool :=
  d.initial.isSome || d.taps.isSome || d.returnSteps.isSome

/-- Lines 354-382, per entry.  `None` (and a falsy empty dict) becomes
`dict()`; a bare variable becomes `{initial: v, taps: [-1]}`; a dict with
truthy taps but no truthy initial raises; a dict with an initial but no
truthy taps gets `taps=[-1]` (with only a warning when `taps` was an
explicit `None`); anything else is kept as given. -/
def normalizeOut1 : OutArg → Except Err OutDict
  | .noneA => .ok ⟨none, none, none⟩
  | .bare x => .ok ⟨some x, some (some [-1]), none⟩
  | .dict d =>
    if !outDictTruthy d then .ok ⟨none, none, none⟩
    else if d.initial.isNone && tapsTruthy d.taps then .error .tapsNoInitial
    else if d.initial.isSome && !tapsTruthy d.taps then
      .ok { d with taps := some (some [-1]) }
    else .ok d

/-- The normalization loop over `outs_info`, left to right, stopping at the
first raise. -/
def normalizeOuts : List OutArg → Except Err (List OutDict)
  | [] => .ok []
  | o :: rest =>
    match normalizeOut1 o with
    | .error e => .error e
    | .ok d =>
      match normalizeOuts rest with
      | .error e => .error e
      | .ok ds => .ok (d :: ds)

/-- Lines 356-358: the `return_steps` dict, keyed by the original position
in `outputs_info`; collected only from truthy dict entries with a truthy
(non-zero) `return_steps` value. -/
def rsOf : OutArg → Option Int
  | .dict d =>
    if outDictTruthy d then
      match d.returnSteps with
      | some k => if k ≠ 0 then some k else none
      | none => none
    else none
  | _ => none

/-- Build the `(position, return_steps)` association list. -/
def collectReturnSteps : Nat → List OutArg → List (Nat × Int)
  | _, [] => []
  | i, o :: rest =>
    match rsOf o with
    | some k => (i, k) :: collectReturnSteps (i + 1) rest
    | none => collectReturnSteps (i + 1) rest

/-- The lookup `return_steps.get(pos, 0)` (line 701). -/
def getRS (rs : List (Nat × Int)) (pos : Nat) : Int :=
  (rs.lookup pos).getD 0

/-- The value `numpy.min` computes of a (non-empty) tap list; the empty case is unreachable
behind the guards that call it. -/
def listMin : List Int → Int
  | [] => 0
  | h :: t => t.foldl min h

/-- The value `numpy.max` computes of a (non-empty) tap list. -/
def listMax : List Int → Int
  | [] => 0
  | h :: t => t.foldl max h

/-- Lines 401-465, for the `i`-th normalized sequence: one
`(scan_seq, inner_seq, inner_slice)` triple per tap `k`.
`inner_slice = seq['input'][k - mintap]` (line 418), `inner_seq` a fresh
placeholder, and `scan_seq` the window of lines 447-458.  A present but
empty tap list makes `numpy.min([])` raise (a plain Python error, not a
configuration error); a sequence dict without a `taps` key contributes
nothing (line 404 `if 'taps' in seq`). -/
def seqSlicesFor (goB : Bool) (i : Nat) (s : SeqDict) :
    Except Err (List (GExpr × GExpr × GExpr)) :=
  match s.taps with
  | some (some []) => .error .pyError
  | some (some (t0 :: ts)) =>
    let taps := t0 :: ts
    let mintap := listMin taps
    let maxtap := listMax taps
    .ok (taps.map fun k =>
      let actualSlice := GExpr.index s.input (k - mintap)
      let ph := GExpr.phSeqTap i k
      let offset : Int := if maxtap < 0 then -maxtap else 0
      let nw0 :=
        if maxtap = mintap ∧ maxtap ≠ 0 then
          GExpr.sliceTo s.input (if maxtap < 0 then -maxtap else maxtap)
        else if maxtap - k ≠ 0 then
          GExpr.sliceFromTo s.input (offset + k - mintap) (-(maxtap - k))
        else GExpr.sliceFrom s.input (offset + k - mintap)
      let nw := if goB then GExpr.rev nw0 else nw0
      (nw, ph, actualSlice))
  | _ => .ok []

/-- The loop over all sequences, collecting the triples of `seqSlicesFor`. -/
def buildSeqData (goB : Bool) : Nat → List SeqDict → Except Err (List (GExpr × GExpr × GExpr))
  | _, [] => .ok []
  | i, s :: rest =>
    match seqSlicesFor goB i s with
    | .error e => .error e
    | .ok a =>
      match buildSeqData goB (i + 1) rest with
      | .error e => .error e
      | .ok b => .ok (a ++ b)

/-- Lines 470-493: the resolved trip count.  `lengths_vec` is the
`shape[0]` of every windowed sequence, plus `as_tensor(n_steps)` when
`n_steps` is usable; raise when it is empty; when `n_steps` is unusable
fold `tensor.minimum` over it, otherwise `actual_n_steps` is
`tensor.as_tensor(n_steps)` itself ("If the user has provided the number
of steps, do that regardless"). -/
def actualNStepsE (scanSeqs : List GExpr) (n : NSteps) : Except Err STerm :=
  match scanSeqs.map STerm.shapeLen ++ (if isNaNInfNone n then [] else [asTensorN n]) with
  | [] => .error .noStepInfo
  | h0 :: t => if isNaNInfNone n then .ok (t.foldl STerm.minS h0) else .ok (asTensorN n)

/-- Modelled from the spec: the Step-Count Resolver sentence
"`actual_n_steps` is the minimum of the lengths of every normalized
sequence plus (if given) the supplied `n_steps`".  Written to compare with
`actualNStepsE`, which is the code's resolution. -/
def actualNSteps_specMin (scanSeqs : List GExpr) (n : NSteps) : Option STerm :=
  match scanSeqs.map STerm.shapeLen ++ (if isNaNInfNone n then [] else [asTensorN n]) with
  | [] => none
  | h0 :: t => some (t.foldl STerm.minS h0)

/-- The three output categories this entry point can populate. -/
inductive OutCat3 where
  | mit
  | sit
  | nit
deriving DecidableEq, Repr

/-- Lines 539-634 (first classification pass) together with step 5.4
(line 802): `taps == [-1]` is sit_sot; a truthy tap list other than `[-1]`
raises for any future tap and is mit_sot otherwise; an absent `taps` key is
nit_sot; a present-but-falsy `taps` value (`[]` or explicit `None`) is
picked up by no category (`.ok none`). -/
def classifyOut (d : OutDict) : Except Err (Option OutCat3) :=
  match d.taps with
  | some (some l) =>
    if l = [-1] then .ok (some .sit)
    else if l.isEmpty then .ok none
    else if l.any (fun t => 0 < t) then .error .futureTaps
    else .ok (some .mit)
  | some none => .ok none
  | none => .ok (some .nit)

/-- Classification of the whole normalized `outs_info`, left to right. -/
def classifyAll : List OutDict → Except Err (List (Option OutCat3))
  | [] => .ok []
  | d :: rest =>
    match classifyOut d with
    | .error e => .error e
    | .ok c =>
      match classifyAll rest with
      | .error e => .error e
      | .ok cs => .ok (c :: cs)

/-- The inner slices of one output entry on the collapsible path:
`sit_sot_inner_slices` is the initial state itself (line 575),
`mit_sot_inner_slices` is `initial[k + mintap]` per tap (line 604) with
`mintap = abs(numpy.min(taps))`.  (After normalization a truthy tap list
always comes with an initial state.) -/
def entrySlices (d : OutDict) : List GExpr :=
  match d.taps, d.initial with
  | some (some l), some ini =>
    if l = [-1] then [ini]
    else if l.isEmpty then []
    else
      let mintap : Int := (listMin l).natAbs
      l.map fun k => GExpr.index ini (k + mintap)
  | _, _ => []

/-- The inner placeholders of one output entry on the non-collapsed path
(`sit_sot_inner_inputs` / `mit_sot_inner_inputs`). -/
def entryPhs (i : Nat) (d : OutDict) : List GExpr :=
  match d.taps with
  | some (some l) =>
    if l = [-1] then [GExpr.phSit i]
    else if l.isEmpty then []
    else l.map (GExpr.phOutTap i)
  | _ => []

/-- Lines 637-662: `_ordered_args` scatters each entry's slice (or
placeholder) chunk back to its original position and flattens; entries in
no category contribute nothing, so the result is the concatenation of the
per-entry chunks in original `outputs_info` order. -/
def orderedOf (f : Nat → OutDict → List GExpr) : Nat → List OutDict → List GExpr
  | _, [] => []
  | i, d :: rest => f i d ++ orderedOf f (i + 1) rest

/-- Updates: the association a step function returns for shared variables,
kept abstract and passed through verbatim. -/
abbrev Upd := List (String × GExpr)

/-- The arguments record of one `scan(...)` call (after `wrap_into_list`,
which turns `None` into `[]` and a single value into a one-element list). -/
structure ScanArgs where
  sequences : List SeqArg
  outputsInfo : List OutArg
  nonSequences : List GExpr
  nSteps : NSteps
  goBackwards : Bool
deriving Repr

/-- Everything `scan` computes before invoking the step function:
normalized descriptors, the `return_steps` dict, the three per-tap
sequence lists, the resolved trip count and the output classification. -/
structure PreludeData where
  seqsN : List SeqDict
  outsN : List OutDict
  returnSteps : List (Nat × Int)
  scanSeqs : List GExpr
  innerSeqs : List GExpr
  innerSlices : List GExpr
  ans : STerm
  cats : List (Option OutCat3)
deriving DecidableEq, Repr

/-- Steps 1-2 of `scan` (everything before the single invocation of `fn`
at line 683), with raises in source order: the dtype check (332), output
normalization (366), the no-step-information check (481), the future-tap
check (587). -/
def scanPrelude (args : ScanArgs) : Except Err PreludeData :=
  (nStepsCheck args.nSteps).bind fun _ =>
  (normalizeOuts args.outputsInfo).bind fun outsN =>
  (buildSeqData args.goBackwards 0 (args.sequences.map normalizeSeq)).bind fun sd =>
  (actualNStepsE (sd.map (·.1)) args.nSteps).bind fun ans =>
  (classifyAll outsN).bind fun cats =>
  .ok ⟨args.sequences.map normalizeSeq, outsN,
       collectReturnSteps 0 args.outputsInfo,
       sd.map (·.1), sd.map (·.2.1), sd.map (·.2.2), ans, cats⟩

/-- Lines 663-671: the positional arguments of the single `fn(*args)`
call — actual slices on the collapsible path, fresh placeholders
otherwise, then the reordered per-output chunks, then the non-sequences. -/
def fnArgsOf (args : ScanArgs) (p : PreludeData) : List GExpr :=
  (if collapsibleB args.nSteps then p.innerSlices else p.innerSeqs) ++
    (if collapsibleB args.nSteps then orderedOf (fun _ d => entrySlices d) 0 p.outsN
     else orderedOf entryPhs 0 p.outsN) ++
    args.nonSequences

/-- The padding rule of lines 700-703 for the collapsible path: a
tensor-typed output whose `return_steps.get(pos, 0)` is not 1 gets
`tensor.unbroadcast(tensor.shape_padleft(out), 0)`. -/
def padRule (rs : List (Nat × Int)) (pos : Nat) (o : GExpr) : GExpr :=
  if o.isTensorTy && getRS rs pos ≠ 1 then .unbroadcast0 (.shapePadLeft o) else o

/-- The `for pos, inner_out in enumerate(outputs)` loop (line 693). -/
def padOutputs (rs : List (Nat × Int)) : Nat → List GExpr → List GExpr
  | _, [] => []
  | pos, o :: rest => padRule rs pos o :: padOutputs rs (pos + 1) rest

/-- Lines 704-705: `if len(outputs) == 1: outputs = outputs[0]`. -/
inductive PyOuts where
  | single (x : GExpr)
  | list (l : List GExpr)
deriving DecidableEq, Repr

def pyWrapOuts : List GExpr → PyOuts
  | [x] => .single x
  | l => .list l

/-- Lines 756-763: the post-probe output-count check.  Raise when the probe
count disagrees with `n_outs` and `outs_info` is non-empty; when
`outs_info` is empty the probe count defines `n_outs` and every output
becomes an empty dict. -/
def countCheck (outsN : List OutDict) (probeCount : Nat) : Except Err (Nat × List OutDict) :=
  if ¬ (probeCount = outsN.length ∨ outsN = []) then .error .countMismatch
  else if outsN = [] then
    .ok (probeCount, List.replicate probeCount ⟨none, none, none⟩)
  else .ok (outsN.length, outsN)

/-- What a call returns in our model: on the collapsible path the padded
outputs and verbatim updates; otherwise a summary of the loop-operator
configuration that the claims inspect (the detailed result unpacking of
lines 922-976 is modelled standalone by `remove_dimensions` and the
scatter definitions below). -/
structure LoopSummary where
  actualNSteps : STerm
  nOuts : Nat
  outsInfo : List OutDict
deriving DecidableEq, Repr

inductive ScanRet where
  | collapsed (outs : PyOuts) (upd : Upd)
  | looped (s : LoopSummary)
deriving DecidableEq, Repr

/-- Steps 3-5 of `scan` after the prelude: invoke `fn` once (line 683);
on a collapsible trip count pad and return immediately (lines 689-707);
otherwise run the probe's output-count check and build the loop
configuration. -/
def scanCore (args : ScanArgs) (p : PreludeData)
    (fn : List GExpr → List GExpr × Upd) : Except Err ScanRet :=
  if collapsibleB args.nSteps then
    .ok (.collapsed
      (pyWrapOuts (padOutputs p.returnSteps 0 (fn (fnArgsOf args p)).1))
      (fn (fnArgsOf args p)).2)
  else
    match countCheck p.outsN (fn (fnArgsOf args p)).1.length with
    | .error e => .error e
    | .ok (n2, outs2) => .ok (.looped ⟨p.ans, n2, outs2⟩)

/-- The whole construction routine. -/
def scanModel (args : ScanArgs) (fn : List GExpr → List GExpr × Upd) :
    Except Err ScanRet :=
  match scanPrelude args with
  | .error e => .error e
  | .ok p => scanCore args p fn

/-! ## Result unpacking (lines 922-954)

The loop operator's buffers are runtime arrays; we model each one as a
Lean list of its leading-axis entries and give the slicing of
`remove_dimensions` its numpy semantics. -/

/-- Clamp a (possibly negative) Python index into a drop/take count:
`max 0 (len + i)` for negative `i`, `min i len` for non-negative `i`. -/
def pyIdx (len : Nat) (i : Int) : Nat :=
  if 0 ≤ i then min i.toNat len else ((len : Int) + i).toNat

/-- Python `l[a:]`. -/
def pySliceFromI (l : List α) (a : Int) : List α :=
  l.drop (pyIdx l.length a)

/-- A returned value for one output: either a history (leading time axis
kept) or a single step (`out[-1]`, one axis fewer; `none` only for the
out-of-range access on an empty buffer). -/
inductive Trimmed (α : Type) where
  | hist (l : List α)
  | single (a : Option α)
deriving DecidableEq, Repr

/-- Lines 922-935, `remove_dimensions(outs, steps_return, offsets)`:
`out[-K:]` when `steps_return[idx] > 1`, `out[-1]` when present otherwise,
the untouched buffer when `offsets is None`, and `out[offsets[idx]:]`
otherwise. -/
def remove_dimensions (stepsReturn : Nat → Option Int) (offsets : Option (List Nat)) :
    Nat → List (List α) → List (Trimmed α)
  | _, [] => []
  | idx, out :: rest =>
    (match stepsReturn idx with
     | some k =>
       if 1 < k then Trimmed.hist (pySliceFromI out (-k)) else Trimmed.single out.getLast?
     | none =>
       match offsets with
       | none => Trimmed.hist out
       | some offs => Trimmed.hist (out.drop (offs.getD idx 0))) ::
      remove_dimensions stepsReturn offsets (idx + 1) rest

/-- Follows the spec's words for the Result Unpacker, to be compared with
`remove_dimensions`: "Slices `mit_sot`/`sit_sot` buffers to drop the
leading pre-step padding ..., then further trims to the last
`return_steps` entries" — i.e. for `K > 1` the padding is dropped *first*
and the last `K` entries are taken from the remaining history. -/
def remove_dimensions_spec (stepsReturn : Nat → Option Int) (offsets : Option (List Nat)) :
    Nat → List (List α) → List (Trimmed α)
  | _, [] => []
  | idx, out :: rest =>
    (let trimmed :=
      match offsets with
      | none => out
      | some offs => out.drop (offs.getD idx 0)
     match stepsReturn idx with
     | some k =>
       if 1 < k then Trimmed.hist (pySliceFromI trimmed (-k))
       else Trimmed.single trimmed.getLast?
     | none => Trimmed.hist trimmed) ::
      remove_dimensions_spec stepsReturn offsets (idx + 1) rest

/-! ## The `rightOrder` scatter (lines 960-974) -/

/-- The positions (in original `outputs_info` order) of the entries
assigned to category `c`: each category's `rightOrder` list records the
original index at the moment the entry is appended, during loops of
increasing index. -/
def catIdxs (cats : List OutCat3) (c : OutCat3) : List Nat :=
  (List.range cats.length).filter (fun i => cats.getD i .nit = c)

/-- Line 965: `rightOrder = mit_sot_rightOrder + sit_sot_rightOrder +
nit_sot_rightOrder`. -/
def scanOutputOrder (cats : List OutCat3) : List Nat :=
  catIdxs cats .mit ++ catIdxs cats .sit ++ catIdxs cats .nit

/-- One step of the scatter loop: `scan_out_list[pos] = _scan_out_list[idx]`. -/
def scatterStep (acc : List (Option α)) (pv : Nat × α) : List (Option α) :=
  acc.set pv.1 (some pv.2)

/-- Lines 968-970: start from `[None] * len(rightOrder)` and scatter. -/
def scatterAll (pairs : List (Nat × α)) (acc : List (Option α)) : List (Option α) :=
  pairs.foldl scatterStep acc

/-- The whole scatter for a call whose entry at original position `i` has
category `cats[i]` and whose processed result for that entry is `f i`
(the category-grouped `_scan_out_list` is the `rightOrder` gather of the
per-entry results). -/
def scanScatter (cats : List OutCat3) (f : Nat → α) : List (Option α) :=
  scatterAll ((scanOutputOrder cats).zip ((scanOutputOrder cats).map f))
    (List.replicate (scanOutputOrder cats).length none)

/-- Lines 971-974: unwrap a single declared output, return `None` when
none were declared. -/
inductive PyRet (α : Type) where
  | noneR
  | singleR (a : Option α)
  | listR (l : List (Option α))
deriving DecidableEq, Repr

def finalizeOuts (l : List (Option α)) : PyRet α :=
  if l.length = 1 then .singleR (l.getD 0 none)
  else if l.length = 0 then .noneR
  else .listR l

/-! ## Runtime semantics for trip-count terms

Used by the counterexample of the trip-count claim: evaluate the symbolic
windows and the resolved trip count against one concrete environment
(`envL` gives the runtime array of each sequence variable, `envI` the
runtime value of each scalar variable). -/

/-- Runtime value of the array-shaped expressions the Step-Count Resolver
measures (sequence variables and the windows `scan` cuts from them);
non-array constructors are outside its domain and map to `[]`. -/
def seqVal (envL : String → List Int) : GExpr → List Int
  | .var nm _ => envL nm
  | .sliceFrom g a => pySliceFromI (seqVal envL g) a
  | .sliceTo g b => (seqVal envL g).take (pyIdx (seqVal envL g).length b)
  | .sliceFromTo g a b =>
    ((seqVal envL g).take (pyIdx (seqVal envL g).length b)).drop
      (pyIdx (seqVal envL g).length a)
  | .rev g => (seqVal envL g).reverse
  | _ => []

/-- Runtime value of a trip-count term. -/
def evalSTerm (envI : String → Int) (envL : String → List Int) : STerm → Int
  | .lit v => v
  | .nvar nm => envI nm
  | .shapeLen g => (seqVal envL g).length
  | .minS a b => min (evalSTerm envI envL a) (evalSTerm envI envL b)

/-! ## Concrete inputs used by the counterexamples and witnesses below -/

/-- A `steps_return` dict mapping every position to `K`. -/
def srConst (k : Int) : Nat → Option Int := fun _ => some k

/-- A `steps_return` dict with no entry. -/
def srNone : Nat → Option Int := fun _ => none

/-- The `steps_return` dict of the C3 counterexample (`K = 2`). -/
def srC3 : Nat → Option Int := fun _ => some 2

/-- The identity result assignment used by the C4 witness. -/
def c4F : Nat → Nat := fun i => i

/-- The output dict of the C5 witness: taps `[-2, -1]`, all ≤ 0. -/
def c5D : OutDict := ⟨some (.var "y" true), some (some [-2, -1]), none⟩

/-- The `scan` call of the C7 witness: `outputs_info=[{'taps': [-2]}]`. -/
def c7Args : ScanArgs :=
  ⟨[], [.dict ⟨none, some (some [-2]), none⟩], [], .noneV, false⟩

/-- The step function used by several witnesses: echo the arguments,
no updates. -/
def idFn : List GExpr → List GExpr × Upd := fun xs => (xs, [])

/-- The `scan` call of the C2 witness: one sit_sot output, `n_steps = 1`. -/
def wArgs2 : ScanArgs := ⟨[], [.bare (.var "y" true)], [], .pyInt 1, false⟩

/-- The step function of the C2 witness: echo the previous step, update a
shared variable. -/
def wFn2 : List GExpr → List GExpr × Upd :=
  fun xs => (xs.take 1, [("s", .var "u" true)])

/-- The prelude data `scanPrelude` computes for `wArgs2`. -/
def wPre2 : PreludeData :=
  ⟨[], [⟨some (.var "y" true), some (some [-1]), none⟩], [], [], [], [],
   .lit 1, [some .sit]⟩

/-- The base call of the C10 witness: one declared sit_sot output. -/
def wBase10 : ScanArgs := ⟨[], [.bare (.var "y" true)], [], .noneV, false⟩

/-- The step function of the C10 witness: it returns two outputs although
only one was declared. -/
def wFn10 : List GExpr → List GExpr × Upd :=
  fun _ => ([.var "a" true, .var "b" true], [])

/-- The prelude data for the collapsible C10 call (`n_steps = 1`). -/
def wPre10a : PreludeData :=
  ⟨[], [⟨some (.var "y" true), some (some [-1]), none⟩], [], [], [], [],
   .lit 1, [some .sit]⟩

/-- The prelude data for the non-collapsed C10 call (`n_steps = 5`). -/
def wPre10b : PreludeData :=
  ⟨[], [⟨some (.var "y" true), some (some [-1]), none⟩], [], [], [], [],
   .lit 5, [some .sit]⟩

/-- The `scan` call of the C8 counterexample: `n_steps` is a plain Python
float — `pyFloat 1` stands e.g. for `n_steps = 1.5`, whose truncation
`int(1.5)` is 1. -/
def cArgs8 : ScanArgs := ⟨[], [.bare (.var "y" true)], [], .pyFloat 1, false⟩

/-- The step function of the C8 counterexample. -/
def cFn8 : List GExpr → List GExpr × Upd := fun _ => ([.var "o" true], [])

/-- A call with one sequence and a symbolic (not compile-time-known)
integral `n_steps`. -/
def c1Args : ScanArgs :=
  ⟨[.bare (.var "x" true)], [], [], .tvar "n" "int64" none, false⟩

/-- What the spec's minimum-fold would resolve for `c1Args`. -/
def c1SpecTerm : STerm :=
  .minS (.shapeLen (.sliceFrom (.var "x" true) 0)) (.nvar "n")

/-- An environment where the supplied `n_steps` evaluates to 7. -/
def c1EnvI : String → Int := fun _ => 7

/-- An environment where the sequence `x` has 5 elements. -/
def c1EnvL : String → List Int := fun _ => [1, 2, 3, 4, 5]

/-! ## Helper lemmas -/

/-- Sequential raising: a successful stage continues with its value. -/
@[simp] theorem exbind_ok (a : α) (f : α → Except Err β) :
    (Except.ok a : Except Err α).bind f = f a := rfl

/-- Sequential raising: a raised error propagates past later stages. -/
@[simp] theorem exbind_error (e : Err) (f : α → Except Err β) :
    (Except.error e : Except Err α).bind f = .error e := rfl

/-! ## Claim C1 — trip-count resolution with a supplied, non-constant `n_steps` -/

/-- C1, counterexample: with one sequence of runtime length 5 and a
supplied symbolic `n_steps` evaluating to 7, the code resolves
`actual_n_steps = as_tensor(n_steps)` (runtime value 7), not the claimed
minimum of sequence lengths and `n_steps` (runtime value 5): `n_steps`
supplied and usable takes the `else` branch of line 488, which ignores
`lengths_vec` entirely. -/
theorem trip_count_supplied_not_min_cex :
    (scanPrelude c1Args).map PreludeData.ans = .ok (STerm.nvar "n")
    ∧ actualNSteps_specMin [GExpr.sliceFrom (.var "x" true) 0]
        (.tvar "n" "int64" none) = some c1SpecTerm
    ∧ buildSeqData false 0 (c1Args.sequences.map normalizeSeq) =
        .ok [(GExpr.sliceFrom (.var "x" true) 0, .phSeqTap 0 0,
              .index (.var "x" true) 0)]
    ∧ evalSTerm c1EnvI c1EnvL (STerm.nvar "n") = 7
    ∧ evalSTerm c1EnvI c1EnvL c1SpecTerm = 5
    ∧ evalSTerm c1EnvI c1EnvL (STerm.nvar "n") ≠ evalSTerm c1EnvI c1EnvL c1SpecTerm :=
  ⟨rfl, rfl, rfl, rfl, rfl, by decide⟩

/-- C1, amended: whenever `n_steps` is supplied and usable (not
`None`/`NaN`/`inf`) — in particular whenever it is a non-constant integral
graph variable — the resolved trip count is `as_tensor(n_steps)` itself
and the sequence lengths are ignored; the minimum fold over
`lengths_vec` happens only when `n_steps` is unusable. -/
theorem trip_count_supplied_overrides_lengths (scanSeqs : List GExpr) (n : NSteps)
    (h : isNaNInfNone n = false) :
    actualNStepsE scanSeqs n = .ok (asTensorN n) := by
  unfold actualNStepsE
  cases hm : scanSeqs.map STerm.shapeLen ++
      (if isNaNInfNone n then [] else [asTensorN n]) with
  | nil =>
    rw [h] at hm
    exact absurd hm (by simp)
  | cons h0 t => simp [h]

/-- Witness for `trip_count_supplied_overrides_lengths`. -/
theorem trip_count_supplied_overrides_lengths_witness :
    actualNStepsE [GExpr.var "x" true] (.tvar "n" "int64" none) =
      .ok (STerm.nvar "n") :=
  trip_count_supplied_overrides_lengths [GExpr.var "x" true]
    (.tvar "n" "int64" none) rfl

/-! ## Claim C9 — default taps of a sequence dictionary -/

/-- C9: a sequence dictionary *without* a `taps` key is left without taps
by normalization (and therefore contributes no time-slice placeholder at
all, line 404), while a bare variable and a dict with an explicit
`taps: None` do get the default `[0]`.  The branch meant for the missing
key (its comment reads "seqs dictionary does not have the ``taps`` key",
and the docstring says the default tap value is `[0]`) is guarded by
`seqs[i].get('taps',True) is None`, which can only fire on an explicit
`None`. -/
theorem seq_missing_taps_key_not_defaulted :
    normalizeSeq (SeqArg.dict ⟨.var "x" true, none⟩) = ⟨.var "x" true, none⟩
    ∧ (normalizeSeq (SeqArg.dict ⟨.var "x" true, none⟩)).taps ≠ some (some [0])
    ∧ normalizeSeq (SeqArg.dict ⟨.var "x" true, some none⟩) =
        ⟨.var "x" true, some (some [0])⟩
    ∧ normalizeSeq (SeqArg.bare (.var "x" true)) = ⟨.var "x" true, some (some [0])⟩
    ∧ seqSlicesFor false 0 ⟨.var "x" true, none⟩ = .ok [] :=
  ⟨rfl, by decide, rfl, rfl, rfl⟩

/-! ## Claim C3 — `return_steps` trimming in the Result Unpacker -/

/-- C3, counterexample: a mit_sot buffer `[10, 20, 30]` with `mintap = 2`
pre-step padding entries (`10, 20`) and a single computed step (`30`),
requested with `return_steps = 2`.  The code takes `out[-2:]` of the *raw*
buffer and returns `[20, 30]` — one padding entry included — while the
claim's drop-padding-first reading yields `[30]`. -/
theorem return_steps_trim_cex :
    remove_dimensions srC3 (some [2]) 0 [[10, 20, 30]] =
      [Trimmed.hist [20, 30]]
    ∧ remove_dimensions_spec srC3 (some [2]) 0 [[10, 20, 30]] =
      [Trimmed.hist [30]]
    ∧ remove_dimensions srC3 (some [2]) 0 [[10, 20, 30]] ≠
      remove_dimensions_spec srC3 (some [2]) 0 [[10, 20, 30]] :=
  ⟨rfl, rfl, by decide⟩

/-- C3, amended: for `return_steps = K > 1` the returned value is the last
`K` entries of the *untrimmed* buffer (`out[-K:]`, the pre-step padding is
not dropped first); this coincides with the last `K` entries of the
padding-dropped history whenever `K ≤ actual_n_steps`.  `return_steps = 1`
returns the last step only, with the leading axis dropped (`out[-1]`,
a `single` rather than a `hist`); an absent `return_steps` returns the
full history with exactly the pre-step padding removed. -/
theorem return_steps_trimming (pad steps : List α) (k : Int) :
    (1 < k →
      remove_dimensions (srConst k) (some [pad.length]) 0 [pad ++ steps] =
        [Trimmed.hist (pySliceFromI (pad ++ steps) (-k))])
    ∧ (1 < k → k.toNat ≤ steps.length →
      pySliceFromI (pad ++ steps) (-k) = pySliceFromI steps (-k))
    ∧ (steps ≠ [] →
      remove_dimensions (srConst 1) (some [pad.length]) 0 [pad ++ steps] =
        [Trimmed.single steps.getLast?])
    ∧ remove_dimensions srNone (some [pad.length]) 0 [pad ++ steps] =
        [Trimmed.hist steps] := by
  refine ⟨fun hk => ?_, fun hk hle => ?_, fun hs => ?_, ?_⟩
  · simp [remove_dimensions, srConst, hk]
  · unfold pySliceFromI pyIdx
    have hk0 : ¬ (0 ≤ -k) := by omega
    rw [if_neg hk0, if_neg hk0]
    have h1 : (((pad ++ steps).length : Int) + -k).toNat =
        pad.length + (((steps.length : Int) + -k).toNat) := by
      simp only [List.length_append]
      omega
    rw [h1, List.drop_append]
  · have h1 : ¬ (1 < (1 : Int)) := by omega
    have h2 : (pad ++ steps).getLast? = steps.getLast? := by
      rw [List.getLast?_append]
      rcases List.exists_cons_of_ne_nil hs with ⟨a, t, rfl⟩
      cases h : (a :: t).getLast? with
      | none => simp [List.getLast?] at h
      | some b => simp [h, Option.or]
    simp [remove_dimensions, srConst, h1, h2]
  · simp [remove_dimensions, srNone, List.drop_left]

/-- Witness for `return_steps_trimming`. -/
theorem return_steps_trimming_witness :
    remove_dimensions (srConst 2) (some [([5] : List Int).length]) 0
        [([5] : List Int) ++ [6, 7, 8]] =
      [Trimmed.hist (pySliceFromI (([5] : List Int) ++ [6, 7, 8]) (-2))]
    ∧ pySliceFromI (([5] : List Int) ++ [6, 7, 8]) (-2) =
      pySliceFromI ([6, 7, 8] : List Int) (-2)
    ∧ remove_dimensions (srConst 1) (some [([5] : List Int).length]) 0
        [([5] : List Int) ++ [6, 7, 8]] =
      [Trimmed.single ([6, 7, 8] : List Int).getLast?]
    ∧ remove_dimensions srNone (some [([5] : List Int).length]) 0
        [([5] : List Int) ++ [6, 7, 8]] =
      [Trimmed.hist ([6, 7, 8] : List Int)] := by
  have h := return_steps_trimming (α := Int) [5] [6, 7, 8] 2
  exact ⟨h.1 (by decide), h.2.1 (by decide) (by decide),
    (return_steps_trimming (α := Int) [5] [6, 7, 8] 1).2.2.1 (by decide),
    h.2.2.2⟩

/-! ## Claim C4 — the `rightOrder` scatter restores original positions -/

/-- Zipping a list with its own image is mapping the pairing function. -/
theorem zip_self_map (l : List Nat) (f : Nat → α) :
    l.zip (l.map f) = l.map (fun p => (p, f p)) := by
  induction l with
  | nil => rfl
  | cons a t ih => simp [ih]

/-- Positions never scattered to keep their initial `None`. -/
theorem scatterAll_not_mem (pairs : List (Nat × α)) (p : Nat)
    (h : p ∉ pairs.map Prod.fst) :
    ∀ acc : List (Option α), (scatterAll pairs acc)[p]? = acc[p]? := by
  induction pairs with
  | nil => intro acc; rfl
  | cons qw t ih =>
    intro acc
    simp only [List.map_cons, List.mem_cons, not_or] at h
    have step : scatterAll (qw :: t) acc = scatterAll t (acc.set qw.1 (some qw.2)) := rfl
    rw [step, ih h.2, List.getElem?_set_ne (fun he => h.1 he.symm)]

/-- The scatter never changes the buffer length. -/
theorem scatterAll_length (pairs : List (Nat × α)) :
    ∀ acc : List (Option α), (scatterAll pairs acc).length = acc.length := by
  induction pairs with
  | nil => intro acc; rfl
  | cons qw t ih =>
    intro acc
    have step : scatterAll (qw :: t) acc = scatterAll t (acc.set qw.1 (some qw.2)) := rfl
    rw [step, ih, List.length_set]

/-- With pairwise-distinct target positions, a scattered pair is found at
its position afterwards. -/
theorem scatterAll_mem (pairs : List (Nat × α)) (p : Nat) (v : α)
    (hnd : (pairs.map Prod.fst).Nodup) (hmem : (p, v) ∈ pairs) :
    ∀ acc : List (Option α), p < acc.length →
      (scatterAll pairs acc)[p]? = some (some v) := by
  induction pairs with
  | nil => cases hmem
  | cons qw t ih =>
    intro acc hlt
    simp only [List.map_cons, List.nodup_cons] at hnd
    have step : scatterAll (qw :: t) acc = scatterAll t (acc.set qw.1 (some qw.2)) := rfl
    rw [step]
    rcases List.mem_cons.mp hmem with heq | hmemt
    · have hq : qw.1 = p := by rw [← heq]
      have hv : qw.2 = v := by rw [← heq]
      have hnm : p ∉ t.map Prod.fst := hq ▸ hnd.1
      rw [scatterAll_not_mem t p hnm, hq, hv, List.getElem?_set_self hlt]
    · exact ih hnd.2 hmemt _ (by rw [List.length_set]; exact hlt)

/-- Membership in one of the per-category `rightOrder` lists means having
that category. -/
theorem mem_catIdxs (cats : List OutCat3) (c : OutCat3) (i : Nat) :
    i ∈ catIdxs cats c ↔ i < cats.length ∧ cats.getD i .nit = c := by
  simp [catIdxs, List.mem_filter, List.mem_range]

/-- The concatenated `rightOrder` list has no duplicate positions. -/
theorem scanOutputOrder_nodup (cats : List OutCat3) :
    (scanOutputOrder cats).Nodup := by
  have hf : ∀ c : OutCat3, (catIdxs cats c).Nodup :=
    fun c => (List.nodup_range cats.length).filter _
  have hms : (catIdxs cats .mit ++ catIdxs cats .sit).Nodup := by
    refine List.Nodup.append (hf .mit) (hf .sit) ?_
    intro a ha hb
    have h1 := ((mem_catIdxs cats .mit a).mp ha).2
    have h2 := ((mem_catIdxs cats .sit a).mp hb).2
    rw [h1] at h2
    cases h2
  refine List.Nodup.append hms (hf .nit) ?_
  intro a ha hb
  have h2 := ((mem_catIdxs cats .nit a).mp hb).2
  rcases List.mem_append.mp ha with ha1 | ha2
  · have h1 := ((mem_catIdxs cats .mit a).mp ha1).2
    rw [h1] at h2
    cases h2
  · have h1 := ((mem_catIdxs cats .sit a).mp ha2).2
    rw [h1] at h2
    cases h2

/-- The concatenated `rightOrder` list contains exactly the original
positions. -/
theorem mem_scanOutputOrder (cats : List OutCat3) (i : Nat) :
    i ∈ scanOutputOrder cats ↔ i < cats.length := by
  unfold scanOutputOrder
  constructor
  · intro h
    rcases List.mem_append.mp h with h12 | h3
    · rcases List.mem_append.mp h12 with h1 | h2
      · exact ((mem_catIdxs cats .mit i).mp h1).1
      · exact ((mem_catIdxs cats .sit i).mp h2).1
    · exact ((mem_catIdxs cats .nit i).mp h3).1
  · intro h
    cases hc : cats.getD i .nit with
    | mit =>
      exact List.mem_append.mpr (Or.inl (List.mem_append.mpr
        (Or.inl ((mem_catIdxs cats .mit i).mpr ⟨h, hc⟩))))
    | sit =>
      exact List.mem_append.mpr (Or.inl (List.mem_append.mpr
        (Or.inr ((mem_catIdxs cats .sit i).mpr ⟨h, hc⟩))))
    | nit =>
      exact List.mem_append.mpr (Or.inr ((mem_catIdxs cats .nit i).mpr ⟨h, hc⟩))

/-- The list `rightOrder` is a permutation of `0, …, n-1`. -/
theorem scanOutputOrder_perm (cats : List OutCat3) :
    (scanOutputOrder cats).Perm (List.range cats.length) := by
  refine (List.perm_ext_iff_of_nodup (scanOutputOrder_nodup cats)
    (List.nodup_range cats.length)).mpr (fun a => ?_)
  rw [mem_scanOutputOrder, List.mem_range]

/-- C4: for every assignment of `outputs_info` entries to the categories
`mit_sot`, `sit_sot`, `nit_sot` (entry `i` having result `f i`), the
`rightOrder` scatter of lines 960-974 is a bijection onto the original
positions: the concatenated `rightOrder` is a permutation of
`0, …, n-1`, the scattered list holds entry `i`'s result at position `i`,
a single declared output is returned unwrapped, and `None` is returned
when none were declared. -/
theorem rightOrder_scatter_restores_positions (cats : List OutCat3) (f : Nat → α) :
    (scanOutputOrder cats).Perm (List.range cats.length)
    ∧ (∀ i, i < cats.length → (scanScatter cats f)[i]? = some (some (f i)))
    ∧ (cats.length = 1 → finalizeOuts (scanScatter cats f) = .singleR (some (f 0)))
    ∧ (cats = [] → finalizeOuts (scanScatter cats f) = .noneR) := by
  have hperm := scanOutputOrder_perm cats
  have hlen : (scanOutputOrder cats).length = cats.length := by
    rw [hperm.length_eq, List.length_range]
  have hget : ∀ i, i < cats.length → (scanScatter cats f)[i]? = some (some (f i)) := by
    intro i hi
    unfold scanScatter
    rw [zip_self_map]
    have hfst : ((scanOutputOrder cats).map (fun p => (p, f p))).map Prod.fst =
        scanOutputOrder cats := by
      rw [List.map_map]
      exact List.map_id _
    refine scatterAll_mem _ i (f i) (by rw [hfst]; exact scanOutputOrder_nodup cats)
      (List.mem_map.mpr ⟨i, (mem_scanOutputOrder cats i).mpr hi, rfl⟩) _ ?_
    rw [List.length_replicate, hlen]
    exact hi
  have hslen : (scanScatter cats f).length = cats.length := by
    unfold scanScatter
    rw [scatterAll_length, List.length_replicate, hlen]
  refine ⟨hperm, hget, fun h1 => ?_, fun h0 => ?_⟩
  · have hs1 : (scanScatter cats f).length = 1 := by rw [hslen, h1]
    unfold finalizeOuts
    rw [if_pos hs1, List.getD_eq_getElem?_getD, hget 0 (by omega)]
    rfl
  · subst h0
    rfl

/-- Witness for `rightOrder_scatter_restores_positions`. -/
theorem rightOrder_scatter_restores_positions_witness :
    (scanOutputOrder [OutCat3.nit, OutCat3.sit, OutCat3.mit]).Perm (List.range 3)
    ∧ (scanScatter [OutCat3.nit, OutCat3.sit, OutCat3.mit] c4F)[1]? =
        some (some (c4F 1)) :=
  ⟨(rightOrder_scatter_restores_positions [OutCat3.nit, OutCat3.sit, OutCat3.mit] c4F).1,
   (rightOrder_scatter_restores_positions [OutCat3.nit, OutCat3.sit, OutCat3.mit] c4F).2.1
     1 (by decide)⟩

/-! ## Claim C5 — future output taps fail classification -/

/-- C5: for an output spec whose tap list is present and different from
`[-1]`, classification raises the future-taps configuration error exactly
when some tap is strictly positive; a tap list whose values are all ≤ 0
passes classification. -/
theorem future_taps_classification_iff (d : OutDict) (l : List Int)
    (h1 : d.taps = some (some l)) (h2 : l ≠ [-1]) :
    (classifyOut d = .error .futureTaps ↔ ∃ t ∈ l, 0 < t)
    ∧ ((∀ t ∈ l, t ≤ 0) → ∃ c, classifyOut d = .ok c) := by
  have hcl : classifyOut d =
      (if l = [-1] then .ok (some .sit)
       else if l.isEmpty then .ok none
       else if l.any (fun t => 0 < t) then .error .futureTaps
       else .ok (some .mit)) := by
    unfold classifyOut
    rw [h1]
  rw [hcl, if_neg h2]
  by_cases he : l.isEmpty
  · have hl : l = [] := by simpa using he
    subst hl
    simp
  · rw [if_neg he]
    by_cases ha : l.any (fun t => 0 < t)
    · rw [if_pos ha]
      constructor
      · simpa [List.any_eq_true] using ha
      · intro hall
        rcases List.any_eq_true.mp ha with ⟨t, htl, ht⟩
        have ht2 : 0 < t := by simpa using ht
        have := hall t htl
        omega
    · rw [if_neg ha]
      constructor
      · simp only [List.any_eq_true, decide_eq_true_eq] at ha
        simpa using ha
      · intro _
        exact ⟨some .mit, rfl⟩

/-- Witness for `future_taps_classification_iff`. -/
theorem future_taps_classification_iff_witness :
    ((classifyOut c5D = .error .futureTaps ↔ ∃ t ∈ [(-2 : Int), -1], 0 < t)
      ∧ ((∀ t ∈ [(-2 : Int), -1], t ≤ 0) → ∃ c, classifyOut c5D = .ok c)) :=
  future_taps_classification_iff c5D [-2, -1] rfl (by decide)

/-! ## Claim C6 — probe output-count resolution -/

/-- C6: with non-empty declared `outputs_info`, a probe output count that
disagrees with the declared count raises the configuration error; with
empty `outputs_info`, the probe count defines `n_outs` post hoc, every
output becoming an empty dict that classifies as a map-style (`nit_sot`)
output. -/
theorem probe_count_resolution (outsN : List OutDict) (probeCount : Nat) :
    (outsN ≠ [] → probeCount ≠ outsN.length →
      countCheck outsN probeCount = .error .countMismatch)
    ∧ (countCheck ([] : List OutDict) probeCount =
        .ok (probeCount, List.replicate probeCount ⟨none, none, none⟩)
      ∧ ∀ d ∈ List.replicate probeCount (⟨none, none, none⟩ : OutDict),
          classifyOut d = .ok (some .nit)) := by
  refine ⟨fun hne hcc => ?_, ?_, fun d hd => ?_⟩
  · unfold countCheck
    rw [if_pos]
    intro h
    rcases h with h | h
    · exact hcc h
    · exact hne h
  · unfold countCheck
    rw [if_neg (by simp), if_pos rfl]
  · rw [(List.mem_replicate.mp hd).2]
    rfl

/-- Witness for `probe_count_resolution`. -/
theorem probe_count_resolution_witness :
    countCheck [(⟨some (.var "y" true), some (some [-1]), none⟩ : OutDict)] 2 =
      .error .countMismatch
    ∧ countCheck ([] : List OutDict) 2 =
      .ok (2, List.replicate 2 ⟨none, none, none⟩) :=
  ⟨(probe_count_resolution [⟨some (.var "y" true), some (some [-1]), none⟩] 2).1
      (by decide) (by decide),
   (probe_count_resolution [] 2).2.1⟩

/-! ## Claim C7 — taps without an initial state fail synchronously -/

/-- Normalization of one output entry can only raise the taps-without-initial error. -/
theorem normalizeOut1_error_eq (o : OutArg) (e : Err)
    (h : normalizeOut1 o = .error e) : e = .tapsNoInitial := by
  cases o with
  | noneA => cases h
  | bare x => cases h
  | dict d =>
    simp only [normalizeOut1] at h
    split at h
    · cases h
    · split at h
      · cases h
        rfl
      · split at h <;> cases h

/-- A dict with truthy taps and no initial raises at normalization. -/
theorem normalizeOut1_bad (d : OutDict) (hi : d.initial = none)
    (ht : tapsTruthy d.taps = true) :
    normalizeOut1 (.dict d) = .error .tapsNoInitial := by
  have hts : d.taps.isSome = true := by
    cases hdt : d.taps with
    | none => rw [hdt] at ht; cases ht
    | some _ => rfl
  simp [normalizeOut1, outDictTruthy, hts, hi, ht]

/-- A bad entry anywhere in `outputs_info` makes the whole normalization
loop raise the taps-without-initial error. -/
theorem normalizeOuts_mem_bad (l : List OutArg)
    (h : ∃ o ∈ l, normalizeOut1 o = .error .tapsNoInitial) :
    normalizeOuts l = .error .tapsNoInitial := by
  induction l with
  | nil => rcases h with ⟨o, ho, _⟩; cases ho
  | cons o rest ih =>
    rcases h with ⟨o1, ho1, hbad⟩
    rcases List.mem_cons.mp ho1 with rfl | hrest
    · unfold normalizeOuts
      rw [hbad]
    · unfold normalizeOuts
      cases hno : normalizeOut1 o with
      | error e => rw [normalizeOut1_error_eq o e hno]
      | ok d => rw [ih ⟨o1, hrest, hbad⟩]

/-- C7: an `outputs_info` dict entry with a (non-empty) tap list but no
initial state makes the whole construction fail with the configuration
error, for every step function — the error is raised inside input
normalization (Step 1), before any graph fragment or loop configuration
is produced and before the step function is ever invoked. -/
theorem taps_without_initial_fails_early (args : ScanArgs)
    (fn : List GExpr → List GExpr × Upd)
    (hd : nStepsCheck args.nSteps = .ok ())
    (hbad : ∃ d, OutArg.dict d ∈ args.outputsInfo ∧ d.initial = none ∧
      tapsTruthy d.taps = true) :
    normalizeOuts args.outputsInfo = .error .tapsNoInitial
    ∧ scanModel args fn = .error .tapsNoInitial := by
  rcases hbad with ⟨d, hmem, hi, ht⟩
  have hn : normalizeOuts args.outputsInfo = .error .tapsNoInitial :=
    normalizeOuts_mem_bad _ ⟨.dict d, hmem, normalizeOut1_bad d hi ht⟩
  refine ⟨hn, ?_⟩
  unfold scanModel scanPrelude
  rw [hd, exbind_ok, hn, exbind_error]

/-- Witness for `taps_without_initial_fails_early`. -/
theorem taps_without_initial_fails_early_witness :
    normalizeOuts c7Args.outputsInfo = .error .tapsNoInitial
    ∧ scanModel c7Args idFn = .error .tapsNoInitial :=
  taps_without_initial_fails_early c7Args idFn rfl
    ⟨⟨none, some (some [-2]), none⟩, by simp [c7Args], rfl, rfl⟩

/-! ## Claim C2 — collapsible trip counts bypass the loop operator -/

/-- Element-wise description of the padding loop. -/
theorem padOutputs_getElem? (rs : List (Nat × Int)) (l : List GExpr) :
    ∀ n i, (padOutputs rs n l)[i]? = (l[i]?).map (padRule rs (n + i)) := by
  induction l with
  | nil => intro n i; simp [padOutputs]
  | cons o t ih =>
    intro n i
    cases i with
    | zero => simp [padOutputs]
    | succ j =>
      simp only [padOutputs, List.getElem?_cons_succ]
      rw [ih (n + 1) j]
      have he : n + 1 + j = n + (j + 1) := by omega
      rw [he]

/-- C2: whenever `n_fixed_steps` is a compile-time 1 or -1 (and the stages
before the step-function invocation succeed), `scan` returns right after
the single direct invocation of the step function as a `collapsed` result
— no loop-operator configuration is built — with the invocation's updates
verbatim, and with each returned output `o` at position `i` replaced by
`unbroadcast(shape_padleft(o), 0)` exactly when it is tensor-typed and its
`return_steps` is not exactly 1 (a single output is additionally
unwrapped, by `pyWrapOuts`). -/
theorem collapsible_bypasses_loop_op (args : ScanArgs)
    (fn : List GExpr → List GExpr × Upd) (p : PreludeData)
    (h1 : scanPrelude args = .ok p) (h2 : collapsibleB args.nSteps = true) :
    scanModel args fn =
      .ok (.collapsed
        (pyWrapOuts (padOutputs p.returnSteps 0 (fn (fnArgsOf args p)).1))
        (fn (fnArgsOf args p)).2)
    ∧ ∀ i, (padOutputs p.returnSteps 0 (fn (fnArgsOf args p)).1)[i]? =
        ((fn (fnArgsOf args p)).1[i]?).map (padRule p.returnSteps i) := by
  constructor
  · unfold scanModel
    rw [h1]
    unfold scanCore
    rw [h2]
    simp
  · intro i
    have h := padOutputs_getElem? p.returnSteps (fn (fnArgsOf args p)).1 0 i
    simpa using h

/-- Witness for `collapsible_bypasses_loop_op`. -/
theorem collapsible_bypasses_loop_op_witness :
    scanModel wArgs2 wFn2 =
      .ok (.collapsed
        (pyWrapOuts (padOutputs wPre2.returnSteps 0 (wFn2 (fnArgsOf wArgs2 wPre2)).1))
        (wFn2 (fnArgsOf wArgs2 wPre2)).2)
    ∧ (padOutputs wPre2.returnSteps 0 (wFn2 (fnArgsOf wArgs2 wPre2)).1)[0]? =
        ((wFn2 (fnArgsOf wArgs2 wPre2)).1[0]?).map (padRule wPre2.returnSteps 0) :=
  ⟨(collapsible_bypasses_loop_op wArgs2 wFn2 wPre2 rfl rfl).1,
   (collapsible_bypasses_loop_op wArgs2 wFn2 wPre2 rfl rfl).2 0⟩

/-! ## Claim C10 — the output-count check is skipped on the collapsible path -/

/-- C10: with a step function returning `c` outputs, `c` different from
the number of declared (non-empty, normalized) `outputs_info` entries,
the collapsible path returns a collapsed result with no error at all,
while the non-collapsed path with the same declared outputs raises the
count-mismatch configuration error. -/
theorem collapsible_skips_count_check (base : ScanArgs) (n1 n2 : NSteps)
    (fn : List GExpr → List GExpr × Upd) (c : Nat) (p1 p2 : PreludeData)
    (h1 : scanPrelude {base with nSteps := n1} = .ok p1)
    (h2 : scanPrelude {base with nSteps := n2} = .ok p2)
    (hc1 : collapsibleB n1 = true) (hc2 : collapsibleB n2 = false)
    (hfn : ∀ xs, (fn xs).1.length = c)
    (hne : p2.outsN ≠ []) (hcc : c ≠ p2.outsN.length) :
    (∃ o u, scanModel {base with nSteps := n1} fn = .ok (.collapsed o u))
    ∧ scanModel {base with nSteps := n2} fn = .error .countMismatch := by
  constructor
  · refine ⟨pyWrapOuts (padOutputs p1.returnSteps 0
      (fn (fnArgsOf {base with nSteps := n1} p1)).1),
      (fn (fnArgsOf {base with nSteps := n1} p1)).2, ?_⟩
    unfold scanModel
    rw [h1]
    unfold scanCore
    have hn : ({base with nSteps := n1} : ScanArgs).nSteps = n1 := rfl
    rw [hn, hc1]
    simp
  · unfold scanModel
    rw [h2]
    unfold scanCore
    have hn : ({base with nSteps := n2} : ScanArgs).nSteps = n2 := rfl
    rw [hn, hc2]
    simp only [Bool.false_eq_true, if_false]
    rw [hfn]
    unfold countCheck
    rw [if_pos]
    intro hor
    rcases hor with h | h
    · exact hcc h
    · exact hne h

/-- Witness for `collapsible_skips_count_check`. -/
theorem collapsible_skips_count_check_witness :
    (∃ o u, scanModel {wBase10 with nSteps := NSteps.pyInt 1} wFn10 =
      .ok (.collapsed o u))
    ∧ scanModel {wBase10 with nSteps := NSteps.pyInt 5} wFn10 =
      .error .countMismatch :=
  collapsible_skips_count_check wBase10 (.pyInt 1) (.pyInt 5) wFn10 2
    wPre10a wPre10b rfl rfl rfl rfl (fun _ => rfl) (by decide) (by decide)

/-! ## Claim C8 — the `n_steps` dtype check -/

/-- Slice building can only raise the Python error for empty tap lists. -/
theorem seqSlicesFor_error_eq (goB : Bool) (i : Nat) (s : SeqDict) (e : Err)
    (h : seqSlicesFor goB i s = .error e) : e = .pyError := by
  unfold seqSlicesFor at h
  split at h
  · cases h
    rfl
  · cases h
  · cases h

/-- The sequence loop can only raise the Python error. -/
theorem buildSeqData_error_eq (goB : Bool) (l : List SeqDict) :
    ∀ (i : Nat) (e : Err), buildSeqData goB i l = .error e → e = .pyError := by
  induction l with
  | nil => intro i e h; cases h
  | cons s rest ih =>
    intro i e h
    unfold buildSeqData at h
    cases hs : seqSlicesFor goB i s with
    | error e1 =>
      rw [hs] at h
      cases h
      exact seqSlicesFor_error_eq goB i s _ hs
    | ok a =>
      rw [hs] at h
      cases hr : buildSeqData goB (i + 1) rest with
      | error e2 =>
        rw [hr] at h
        cases h
        exact ih (i + 1) _ hr
      | ok b =>
        rw [hr] at h
        cases h

/-- Trip-count resolution can only raise the no-step-information error. -/
theorem actualNStepsE_error_eq (scanSeqs : List GExpr) (n : NSteps) (e : Err)
    (h : actualNStepsE scanSeqs n = .error e) : e = .noStepInfo := by
  unfold actualNStepsE at h
  cases hm : scanSeqs.map STerm.shapeLen ++
      (if isNaNInfNone n then [] else [asTensorN n]) with
  | nil =>
    rw [hm] at h
    have h2 : (Except.error Err.noStepInfo : Except Err STerm) = .error e := h
    cases h2
    rfl
  | cons h0 t =>
    rw [hm] at h
    have h2 : (if isNaNInfNone n then (Except.ok (t.foldl STerm.minS h0) : Except Err STerm)
        else .ok (asTensorN n)) = .error e := h
    split at h2 <;> cases h2

/-- Classification of one output can only raise the future-taps error. -/
theorem classifyOut_error_eq (d : OutDict) (e : Err)
    (h : classifyOut d = .error e) : e = .futureTaps := by
  unfold classifyOut at h
  split at h
  · split at h
    · cases h
    · split at h
      · cases h
      · split at h
        · cases h
          rfl
        · cases h
  · cases h
  · cases h

/-- Classification of all outputs can only raise the future-taps error. -/
theorem classifyAll_error_eq (l : List OutDict) :
    ∀ e : Err, classifyAll l = .error e → e = .futureTaps := by
  induction l with
  | nil => intro e h; cases h
  | cons d rest ih =>
    intro e h
    unfold classifyAll at h
    cases hc : classifyOut d with
    | error e1 =>
      rw [hc] at h
      cases h
      exact classifyOut_error_eq d _ hc
    | ok c =>
      rw [hc] at h
      cases hr : classifyAll rest with
      | error e2 =>
        rw [hr] at h
        cases h
        exact ih _ hr
      | ok cs =>
        rw [hr] at h
        cases h

/-- The output-normalization loop can only raise the taps-without-initial error. -/
theorem normalizeOuts_error_eq (l : List OutArg) :
    ∀ e : Err, normalizeOuts l = .error e → e = .tapsNoInitial := by
  induction l with
  | nil => intro e h; cases h
  | cons o rest ih =>
    intro e h
    unfold normalizeOuts at h
    cases hn : normalizeOut1 o with
    | error e1 =>
      rw [hn] at h
      cases h
      exact normalizeOut1_error_eq o _ hn
    | ok d =>
      rw [hn] at h
      cases hr : normalizeOuts rest with
      | error e2 =>
        rw [hr] at h
        cases h
        exact ih _ hr
      | ok ds =>
        rw [hr] at h
        cases h

/-- The probe-count check can only raise the count-mismatch error. -/
theorem countCheck_error_eq (outsN : List OutDict) (probeCount : Nat) (e : Err)
    (h : countCheck outsN probeCount = .error e) : e = .countMismatch := by
  unfold countCheck at h
  split at h
  · cases h
    rfl
  · split at h <;> cases h

/-- The post-prelude stages can only raise the count-mismatch error. -/
theorem scanCore_error_eq (args : ScanArgs) (p : PreludeData)
    (fn : List GExpr → List GExpr × Upd) (e : Err)
    (h : scanCore args p fn = .error e) : e = .countMismatch := by
  unfold scanCore at h
  split at h
  · cases h
  · cases hc : countCheck p.outsN (fn (fnArgsOf args p)).1.length with
    | error e1 =>
      rw [hc] at h
      cases h
      exact countCheck_error_eq _ _ _ hc
    | ok r =>
      rw [hc] at h
      cases h

/-- If the prelude raises the dtype error, it came from the `n_steps`
check. -/
theorem scanPrelude_error_dtype (args : ScanArgs)
    (h : scanPrelude args = .error .badDtype) :
    nStepsCheck args.nSteps = .error .badDtype := by
  unfold scanPrelude at h
  cases hn : nStepsCheck args.nSteps with
  | error e0 =>
    rw [hn, exbind_error] at h
    injection h with he
    rw [he]
  | ok u =>
    exfalso
    rw [hn, exbind_ok] at h
    cases hno : normalizeOuts args.outputsInfo with
    | error e1 =>
      rw [hno, exbind_error] at h
      have h1 := normalizeOuts_error_eq _ _ hno
      cases h
      cases h1
    | ok outsN =>
      rw [hno, exbind_ok] at h
      cases hbs : buildSeqData args.goBackwards 0 (args.sequences.map normalizeSeq) with
      | error e2 =>
        rw [hbs, exbind_error] at h
        have h1 := buildSeqData_error_eq _ _ _ _ hbs
        cases h
        cases h1
      | ok sd =>
        rw [hbs, exbind_ok] at h
        cases han : actualNStepsE (sd.map (·.1)) args.nSteps with
        | error e3 =>
          rw [han, exbind_error] at h
          have h1 := actualNStepsE_error_eq _ _ _ han
          cases h
          cases h1
        | ok ans =>
          rw [han, exbind_ok] at h
          cases hca : classifyAll outsN with
          | error e4 =>
            rw [hca, exbind_error] at h
            have h1 := classifyAll_error_eq _ _ hca
            cases h
            cases h1
          | ok cats =>
            rw [hca, exbind_ok] at h
            cases h

/-- C8, amended: `scan` raises the dtype configuration error exactly when
`n_steps` bears a `dtype` attribute (a graph or numpy value) whose dtype
is not an integral (`'uin'`/`'int'`-prefixed) type.  A plain Python float
has no `dtype` attribute: it takes the `isinstance(n_steps, (float,int))`
branch, is truncated by `int(n_steps)`, and raises nothing. -/
theorem nsteps_dtype_error_iff (args : ScanArgs)
    (fn : List GExpr → List GExpr × Upd) :
    scanModel args fn = .error .badDtype ↔
      ∃ nm dt cv, args.nSteps = .tvar nm dt cv ∧ dtypeIntegral dt = false := by
  constructor
  · intro h
    unfold scanModel at h
    cases hp : scanPrelude args with
    | ok p =>
      rw [hp] at h
      cases scanCore_error_eq args p fn .badDtype h
    | error e =>
      rw [hp] at h
      cases h
      have hn := scanPrelude_error_dtype args hp
      cases hns : args.nSteps with
      | noneV => rw [hns] at hn; cases hn
      | pyInt v => rw [hns] at hn; cases hn
      | pyFloat t => rw [hns] at hn; cases hn
      | tvar nm dt cv =>
        refine ⟨nm, dt, cv, rfl, ?_⟩
        rw [hns] at hn
        by_cases hdt : dtypeIntegral dt
        · simp [nStepsCheck, hdt] at hn
        · exact Bool.eq_false_iff.mpr hdt
  · rintro ⟨nm, dt, cv, hns, hdt⟩
    have hn : nStepsCheck args.nSteps = .error .badDtype := by
      rw [hns]
      simp [nStepsCheck, hdt]
    unfold scanModel scanPrelude
    rw [hn, exbind_error]

/-- C8, counterexample: a `scan` call whose `n_steps` is a plain Python
float (not an integral type) raises no error at all — construction
completes and returns a collapsed result, because the dtype check of
lines 332-336 only fires on values with a `dtype` attribute. -/
theorem nsteps_float_accepted_cex :
    cArgs8.nSteps = .pyFloat 1
    ∧ scanModel cArgs8 cFn8 =
      .ok (.collapsed (.single (.unbroadcast0 (.shapePadLeft (.var "o" true)))) []) :=
  ⟨rfl, rfl⟩

end TheanoScan
